import Mathlib

/-
Verification of the GPS RINEX navigation parser and orbit-propagation
routines of gps_navigation.py.

Python strings are modelled as lists of characters, Python floats as exact
rationals (ℚ): every numeric literal handled by the program is a decimal
mantissa times a power of ten, which ℚ represents exactly; the claims under
study concern control flow, counts, ordering, selection and range bounds,
none of which depend on binary rounding.  Fallible Python code (statements
that can raise) is modelled with `Except`/`Option`.
-/

namespace GpsNav

/-- A Python string, modelled as its list of characters. -/
abbrev PyStr := List Char

/-- Python whitespace, as stripped by `str.strip()`. -/
def isSpace (c : Char) : Bool :=
  c = ' ' || c = '\t' || c = '\n' || c = '\r' || c = '\x0b' || c = '\x0c'

/-- Remove trailing characters satisfying `p`. -/
def dropTrailing (p : Char → Bool) (l : List Char) : List Char :=
  (l.reverse.dropWhile p).reverse

/-- Python `s.strip()`: remove leading and trailing whitespace. -/
def pyStrip (l : PyStr) : PyStr :=
  dropTrailing isSpace (l.dropWhile isSpace)

/-- Python slicing `s[a:b]` for `0 ≤ a ≤ b` (clipped at the string length). -/
def slice (l : PyStr) (a b : ℕ) : PyStr :=
  (l.take b).drop a

/-- Python substring test `pat in s`. -/
def containsSub (pat : PyStr) : PyStr → Bool
  | [] => pat.isEmpty
  | c :: cs => pat.isPrefixOf (c :: cs) || containsSub pat cs

/-- Numeric value of a list of decimal digit characters. -/
def digitsVal (l : List Char) : ℕ :=
  l.foldl (fun n c => 10 * n + (c.toNat - 48)) 0

/-- Python `int(s)` on an already-stripped string: optional sign followed by a
nonempty run of decimal digits; anything else raises `ValueError` (modelled as
`none`).  Underscore digit separators, accepted by CPython, are not modelled;
no input in this development contains them. -/
def pyInt : PyStr → Option ℤ
  | '-' :: r => if !r.isEmpty && r.all Char.isDigit then some (-(digitsVal r : ℤ)) else none
  | '+' :: r => if !r.isEmpty && r.all Char.isDigit then some ((digitsVal r : ℤ)) else none
  | r => if !r.isEmpty && r.all Char.isDigit then some ((digitsVal r : ℤ)) else none

/-- Split a string at the first exponent marker `e`/`E`, returning the part
before it and, when a marker is present, the part after it. -/
def splitAtExpMarker : PyStr → PyStr × Option PyStr
  | [] => ([], none)
  | c :: cs =>
    if c = 'e' || c = 'E' then ([], some cs)
    else
      let p := splitAtExpMarker cs
      (c :: p.1, p.2)

/-- Mantissa of a Python float literal: digits with at most one decimal point
and at least one digit overall; its exact rational value.  `none` models the
`ValueError` raised by `float()` on a malformed mantissa (for example two
decimal points, or a bare point). -/
def parseMantissa (t : PyStr) : Option ℚ :=
  let intp := t.takeWhile Char.isDigit
  let rest := t.drop intp.length
  match rest with
  | [] => if intp.isEmpty then none else some ((digitsVal intp : ℚ))
  | '.' :: frac =>
    if frac.all Char.isDigit && !(intp.isEmpty && frac.isEmpty) then
      some ((digitsVal intp : ℚ) + (digitsVal frac : ℚ) / 10 ^ frac.length)
    else none
  | _ => none

/-- Python `float(s)` on an already-stripped numeric literal: optional sign,
mantissa, optional exponent part.  `none` models `ValueError`.  The special
forms `inf`/`nan` and underscore separators are not modelled; no input in this
development uses them. -/
def pyFloat (t : PyStr) : Option ℚ :=
  let st := match t with
    | '-' :: r => (true, r)
    | '+' :: r => (false, r)
    | r => (false, r)
  let me := splitAtExpMarker st.2
  match parseMantissa me.1, me.2 with
  | some mant, none => some (if st.1 then -mant else mant)
  | some mant, some es =>
    match pyInt es with
    | some ex => some ((if st.1 then -mant else mant) * 10 ^ ex)
    | none => none
  | none, _ => none

/-- Characters matched by the regex class `[0-9\.]`. -/
def isDigitDot (c : Char) : Bool := c.isDigit || c = '.'

/-- Attempt to match the regex `[\-\+]?[0-9\.]+D[\-\+]?[0-9]+` at the start of
the string, as Python `re` does: the optional signs are tried greedily, the
character classes are consumed greedily, and since neither class contains `D`
no backtracking can produce a match the greedy scan misses.  On success,
returns the matched token and the remainder of the string. -/
def matchD (s : PyStr) : Option (PyStr × PyStr) :=
  let st := match s with
    | '-' :: r => (['-'], r)
    | '+' :: r => (['+'], r)
    | r => (([] : PyStr), r)
  let run := st.2.takeWhile isDigitDot
  if run.isEmpty then none
  else
    match st.2.drop run.length with
    | 'D' :: u =>
      let st2 := match u with
        | '-' :: r => (['-'], r)
        | '+' :: r => (['+'], r)
        | r => (([] : PyStr), r)
      let run2 := st2.2.takeWhile Char.isDigit
      if run2.isEmpty then none
      else some (st.1 ++ run ++ 'D' :: st2.1 ++ run2, st2.2.drop run2.length)
    | _ => none

/-- Scanner loop of `re.findall` for the pattern above: try a match at each
position, emit non-overlapping matches left to right.  The fuel argument is
the length of the remaining input; every step consumes at least one
character, so the fuel never runs out before the input does. -/
def findallDAux : ℕ → PyStr → List PyStr
  | 0, _ => []
  | _ + 1, [] => []
  | n + 1, c :: cs =>
    match matchD (c :: cs) with
    | some (tok, rest) => tok :: findallDAux n rest
    | none => findallDAux n cs

/-- Python `re.findall(r'[\-\+]?[0-9\.]+D[\-\+]?[0-9]+', s)`. -/
def findallD (s : PyStr) : List PyStr := findallDAux s.length s

/-- Python `val.replace('D', 'E')` on a matched token. -/
def replaceD (t : PyStr) : PyStr :=
  t.map (fun c => if c = 'D' then 'E' else c)

/-- One parsed broadcast navigation record: the first 29 numeric tokens of an
8-line block, assigned positionally to the field list
a0,a1,a2,IODC,Crs,deltan,M0,Cuc,e,Cus,sqrt_a,toe,Cic,Omega0,Cis,i0,Crc,omega,
Omegadot,idot,L2,week,L2_P,acc,health,TGD,IODC2,trans_time,spare, together
with the calendar timestamp read from fixed columns of the block's first
line. -/
structure EphemerisRecord where
  vals : List ℚ
  year : ℤ
  month : ℤ
  day : ℤ
  hour : ℤ
  minute : ℤ
  second : ℚ
deriving DecidableEq

/-- The `toe` field: position 11 of the positional field list. -/
def EphemerisRecord.toe (r : EphemerisRecord) : ℚ := r.vals.getD 11 0

/-- The parser's result: an insertion-ordered mapping from satellite
identifier to its record sequence, as a Python dict is. -/
abbrev NavData := List (PyStr × List EphemerisRecord)

/-- Errors the parser can raise: `formatError` models the `IndexError` raised
by `lines[0]` when the input is exhausted before an `END OF HEADER` line is
seen (the failure mode the specification names `FormatError`); `valueError`
models Python's `ValueError` from `int()`/`float()` conversions. -/
inductive PError where
  | formatError
  | valueError
deriving DecidableEq

/-- Python `nav_data.setdefault(prn, [])`: if the key is present the dict is
unchanged, otherwise the key is inserted at the end with an empty list. -/
def navSetdefault (nav : NavData) (k : PyStr) : NavData :=
  if nav.any (fun p => p.1 = k) then nav else nav ++ [(k, [])]

/-- Python `nav_data[prn].append(entry)` for a key already present. -/
def navAppend (nav : NavData) (k : PyStr) (r : EphemerisRecord) : NavData :=
  nav.map (fun p => if p.1 = k then (p.1, p.2 ++ [r]) else p)

/-- The header-skipping loop: `while 'END OF HEADER' not in lines[0]:
lines.pop(0)` followed by `lines.pop(0)`.  Exhausting the input raises
(modelled by `formatError`); otherwise the lines after the terminator
remain. -/
def dropHeader : List PyStr → Except PError (List PyStr)
  | [] => Except.error PError.formatError
  | l :: ls => if containsSub "END OF HEADER".toList l then Except.ok ls else dropHeader ls

/-- The six fixed-column timestamp conversions of the block's first line:
`int(block[0][3:8].strip())` … `float(block[0][20:23].strip())`.  Any failed
conversion raises `ValueError` (modelled by `none`). -/
def parseTimestamp (line0 : PyStr) : Option (ℤ × ℤ × ℤ × ℤ × ℤ × ℚ) :=
  match pyInt (pyStrip (slice line0 3 8)), pyInt (pyStrip (slice line0 8 11)),
        pyInt (pyStrip (slice line0 11 14)), pyInt (pyStrip (slice line0 14 17)),
        pyInt (pyStrip (slice line0 17 20)), pyFloat (pyStrip (slice line0 20 23)) with
  | some yr, some mo, some dy, some hr, some mn, some sc => some (yr, mo, dy, hr, mn, sc)
  | _, _, _, _, _, _ => none

/-- Convert every extracted token with `float(val.replace('D','E'))`; the
first failure raises `ValueError` (modelled by `none`). -/
def floatAll : List PyStr → Option (List ℚ)
  | [] => some []
  | t :: ts =>
    match pyFloat (replaceD t), floatAll ts with
    | some v, some vs => some (v :: vs)
    | _, _ => none

/-- The numeric-token extraction across all 8 lines of a block:
`values.extend([float(val.replace('D','E')) for val in re.findall(..., ln)])`
for each line in order. -/
def extractValues (block : List PyStr) : Option (List ℚ) :=
  floatAll (block.flatMap findallD)

/-- The body of the parser's block loop for one 8-line block: read the
identifier from columns 0–3 of the first line (skipping the block when it
strips to empty), register the identifier with `setdefault`, convert the
timestamp columns, extract the numeric tokens, and either discard the block
(fewer than 29 tokens) or append the assembled record. -/
def processBlock (nav : NavData) (block : List PyStr) : Except PError NavData :=
  let line0 := block.headD []
  let prn := pyStrip (slice line0 0 3)
  if prn.isEmpty then Except.ok nav
  else
    let nav1 := navSetdefault nav prn
    match parseTimestamp line0, extractValues block with
    | some ts, some values =>
      if values.length < 29 then Except.ok nav1
      else Except.ok (navAppend nav1 prn
        { vals := values.take 29, year := ts.1, month := ts.2.1, day := ts.2.2.1,
          hour := ts.2.2.2.1, minute := ts.2.2.2.2.1, second := ts.2.2.2.2.2 })
    | _, _ => Except.error PError.valueError

/-- The parser's `while len(lines) >= 8` loop: consume the lines in blocks of
8, leaving any trailing partial block unprocessed. -/
def parseBlocks (nav : NavData) : List PyStr → Except PError NavData
  | l0 :: l1 :: l2 :: l3 :: l4 :: l5 :: l6 :: l7 :: rest =>
    match processBlock nav [l0, l1, l2, l3, l4, l5, l6, l7] with
    | Except.ok nav2 => parseBlocks nav2 rest
    | Except.error er => Except.error er
  | _ => Except.ok nav

/-- `parse_rinex_nav`, on the list of lines of the file (the file read itself
is I/O glue outside the embedding). -/
def parse_rinex_nav (lines : List PyStr) : Except PError NavData :=
  match dropHeader lines with
  | Except.ok rest => parseBlocks [] rest
  | Except.error er => Except.error er

/-- Python `x - ⌊x / m⌋ * m`, the mathematical value of Python's float `%`
with a positive modulus. -/
def pymod (x m : ℚ) : ℚ := x - ⌊x / m⌋ * m

/-- `convert_to_gps_seconds(y, m, d, h, mi, s)`: Julian-Day conversion of the
calendar timestamp (Python `//` is floor division, `Int.fdiv`), then seconds
past the GPS epoch (Julian Day 2444244.5 = 4888489/2) reduced modulo one week
`7*86400`. -/
def convert_to_gps_seconds (y m d h mi : ℤ) (s : ℚ) : ℚ :=
  let a := Int.fdiv (14 - m) 12
  let y_new := y + 4800 - a
  let m_new := m + 12 * a - 3
  let jd0 : ℤ := d + Int.fdiv (153 * m_new + 2) 5 + 365 * y_new + Int.fdiv y_new 4
    - Int.fdiv y_new 100 + Int.fdiv y_new 400 - 32045
  let jd : ℚ := (jd0 : ℚ) + ((h : ℚ) - 12) / 24 + (mi : ℚ) / 1440 + s / 86400
  pymod ((jd - 4888489 / 2) * 86400) (7 * 86400)

/-- `np.arange(start, stop, step)` for a positive step: the values
`start + i*step` for `0 ≤ i < ⌈(stop - start)/step⌉`. -/
def np_arange (start stop step : ℚ) : List ℚ :=
  (List.range (Int.ceil ((stop - start) / step)).toNat).map (fun i => start + (i : ℚ) * step)

/-- `generate_time_sequence(start, end, dt)` = `np.arange(start, end + 1e-9, dt)`.
The Python parameter `dt` defaults to 30; `endv` stands for the Python
parameter `end`, a reserved word in Lean. -/
def generate_time_sequence (start endv dt : ℚ) : List ℚ :=
  np_arange start (endv + 1 / 10 ^ 9) dt

/-- One Newton update of `solve_kepler`:
`E - (E - e*sin(E) - M) / (1 - e*cos(E))`.  The trigonometric functions are
passed as parameters `sinf`/`cosf` (the embedding is over ℚ, where the claims
about the solver's control flow live; any property needed of the real
`math.sin`/`math.cos` is stated as an explicit hypothesis). -/
def kepler_iter (sinf cosf : ℚ → ℚ) (M e E : ℚ) : ℚ :=
  E - (E - e * sinf E - M) / (1 - e * cosf E)

/-- The `for _ in range(max_iter)` loop of `solve_kepler`, with the remaining
iteration count as fuel: compute `E_next`; if the update magnitude is below
`tol` return the current `E`, otherwise continue from `E_next`; at fuel 0
return the current `E`.  A zero denominator models Python's
`ZeroDivisionError` (result `none`). -/
def solve_kepler_loop (sinf cosf : ℚ → ℚ) (M e tol : ℚ) : ℕ → ℚ → Option ℚ
  | 0, E => some E
  | n + 1, E =>
    if 1 - e * cosf E = 0 then none
    else
      let E_next := E - (E - e * sinf E - M) / (1 - e * cosf E)
      if |E_next - E| < tol then some E
      else solve_kepler_loop sinf cosf M e tol n E_next

/-- `solve_kepler(M, e)` with its default arguments `tol=1e-12`,
`max_iter=10` (every call site in the source uses the defaults), seeded at
`E = M`. -/
def solve_kepler (sinf cosf : ℚ → ℚ) (M e : ℚ) : Option ℚ :=
  solve_kepler_loop sinf cosf M e (1 / 10 ^ 12) 10 M

/-- Python `min(iterable, key=key)` on a nonempty list `b :: l`: scan left to
right, replacing the current best only on a strictly smaller key, so the
first element attaining the minimum wins. -/
def pyMin {α : Type} (key : α → ℚ) : α → List α → α
  | b, [] => b
  | b, x :: xs => pyMin key (if key x < key b then x else b) xs

/-- The ephemeris selection of `compute_positions`:
`min(records, key=lambda r: abs(t - r['toe']))` on the nonempty record list
`r :: rs`. -/
def selectEphemeris (t : ℚ) (r : EphemerisRecord) (rs : List EphemerisRecord) : EphemerisRecord :=
  pyMin (fun q => |t - q.toe|) r rs

/-- The week-rollover adjustment applied to `tk = t - toe`:
`if tk > 302400: tk -= 604800` then `if tk < -302400: tk += 604800`. -/
def adjust_tk (tk0 : ℚ) : ℚ :=
  let tk1 := if 302400 < tk0 then tk0 - 604800 else tk0
  if tk1 < -302400 then tk1 + 604800 else tk1

/-- The time-from-ephemeris computed by `compute_positions` for epoch `t`
over the nonempty record list `r :: rs`: select the nearest record, subtract
its `toe`, apply the week-rollover adjustment.  The downstream coordinate
arithmetic (sqrt/atan2/trig over floats) is not embedded; no claim under
study depends on it. -/
def compute_tk (t : ℚ) (r : EphemerisRecord) (rs : List EphemerisRecord) : ℚ :=
  adjust_tk (t - (selectEphemeris t r rs).toe)

/-- A header line containing the terminator sentinel. -/
def headerLine : PyStr := "END OF HEADER".toList

/-- First line of a well-formed block whose timestamp columns parse but which
contains no `D`-exponent numeric token at all. -/
def emptyBlockLine : PyStr := "G01 2024  1  1  0  0  0".toList

/-- Input whose single block registers PRN G01 and is then discarded by the
29-token check: the identifier remains with an empty record list. -/
def emptyPrnInput : List PyStr :=
  [headerLine, emptyBlockLine, [], [], [], [], [], [], []]

/-- First line of a block whose identifier is nonempty but whose year column
does not parse as an integer, so `int()` raises. -/
def badYearLine : PyStr := "G02 abcd".toList

/-- The 8-line block built from `badYearLine`. -/
def badYearBlock : List PyStr := [badYearLine, [], [], [], [], [], [], []]

/-- Input whose single block is `badYearBlock`, preceded by the header. -/
def badYearInput : List PyStr := headerLine :: badYearBlock

/-- First line of the block used to witness the silent-discard theorem. -/
def g04Line : PyStr := "G04 2024  1  1  0  0  0".toList

/-- An ephemeris record with all 29 positional fields zero (so `toe = 0`). -/
def recZero : EphemerisRecord :=
  { vals := List.replicate 29 0, year := 2024, month := 1, day := 1,
    hour := 0, minute := 0, second := 0 }

/-- C1: if no line of the input contains the header terminator
`END OF HEADER`, `parse_rinex_nav` aborts with the header failure (the
`IndexError` from `lines[0]` on exhausted input, which the specification
names `FormatError`) and returns no partial ephemeris set: the result is the
bare error, carrying no data. -/
theorem parse_missing_header (lines : List PyStr)
    (h : ∀ l ∈ lines, containsSub "END OF HEADER".toList l = false) :
    parse_rinex_nav lines = Except.error PError.formatError := by
  have hd : dropHeader lines = Except.error PError.formatError := by
    induction lines with
    | nil => rfl
    | cons a as ih =>
      rw [dropHeader, h a (List.mem_cons_self a as)]
      exact ih (fun l hl => h l (List.mem_cons_of_mem a hl))
  rw [parse_rinex_nav, hd]

/-- Witness for `parse_missing_header` at a concrete two-line input with no
terminator. -/
theorem parse_missing_header_witness :
    (∀ l ∈ [['x'], ['y']], containsSub "END OF HEADER".toList l = false)
      ∧ parse_rinex_nav [['x'], ['y']] = Except.error PError.formatError :=
  ⟨by decide, parse_missing_header [['x'], ['y']] (by decide)⟩

/-- C5: on the concrete input `emptyPrnInput`, whose single block carries the
identifier G01 but no numeric tokens, parsing succeeds and returns a mapping
in which G01 maps to the empty record sequence: `setdefault` registers the
key before the 29-token check discards the block. -/
theorem parse_registers_prn_of_discarded_block :
    parse_rinex_nav emptyPrnInput =
      Except.ok [("G01".toList, ([] : List EphemerisRecord))] := by
  rfl

/-- C4 counterexample: the block `badYearBlock` yields fewer than 29 numeric
tokens (it yields none), yet parsing does not silently discard it and
continue — it aborts with `ValueError`, because the year column `abcd` of its
first line is converted with `int()` before the token count is checked.  The
real `int('abcd')` raises `ValueError`, exactly as modelled. -/
theorem parse_malformed_block_raises :
    (badYearBlock.flatMap findallD).length < 29
      ∧ parse_rinex_nav badYearInput = Except.error PError.valueError := by
  exact ⟨by decide, rfl⟩

/-- C4 amended: every 8-line block whose identifier is nonempty, whose
timestamp columns convert, and whose numeric tokens all convert but number
fewer than 29, is silently discarded: no record is appended (the state only
gains the `setdefault` registration of the identifier), no error is raised,
and parsing continues with the next block. -/
theorem parse_short_block_discarded (nav : NavData)
    (l0 l1 l2 l3 l4 l5 l6 l7 : PyStr) (rest : List PyStr)
    (hp : (pyStrip (slice l0 0 3)).isEmpty = false)
    (yr mo dy hr mn : ℤ) (sc : ℚ)
    (hts : parseTimestamp l0 = some (yr, mo, dy, hr, mn, sc))
    (values : List ℚ)
    (hv : extractValues [l0, l1, l2, l3, l4, l5, l6, l7] = some values)
    (hlen : values.length < 29) :
    parseBlocks nav (l0 :: l1 :: l2 :: l3 :: l4 :: l5 :: l6 :: l7 :: rest)
      = parseBlocks (navSetdefault nav (pyStrip (slice l0 0 3))) rest := by
  have hpb : processBlock nav [l0, l1, l2, l3, l4, l5, l6, l7]
      = Except.ok (navSetdefault nav (pyStrip (slice l0 0 3))) := by
    simp only [processBlock, List.headD, hts, hv, hp, Bool.false_eq_true,
      if_false, if_pos hlen]
  rw [parseBlocks, hpb]

/-- Witness for `parse_short_block_discarded`: the G04 block with valid
timestamp columns and zero numeric tokens is discarded, leaving only the
registered identifier. -/
theorem parse_short_block_discarded_witness :
    ((pyStrip (slice g04Line 0 3)).isEmpty = false
      ∧ parseTimestamp g04Line = some (2024, 1, 1, 0, 0, 0)
      ∧ extractValues [g04Line, [], [], [], [], [], [], []] = some []
      ∧ ([] : List ℚ).length < 29)
    ∧ parseBlocks [] [g04Line, [], [], [], [], [], [], []]
        = parseBlocks (navSetdefault [] (pyStrip (slice g04Line 0 3))) [] :=
  ⟨⟨by decide, by decide, by decide, by decide⟩,
   parse_short_block_discarded [] g04Line [] [] [] [] [] [] [] []
     (by decide) 2024 1 1 0 0 0 (by decide) [] (by decide) (by decide)⟩

/-- Python `min` with a key, specified: the result's key is at most the seed's
key and at most every listed element's key, and the seed-fronted list splits
as `l1 ++ result :: l2` where every element of `l1` has a strictly larger
key — so the result is the first element attaining the minimum. -/
theorem pyMin_spec {α : Type} (key : α → ℚ) :
    ∀ (l : List α) (b : α),
      (key (pyMin key b l) ≤ key b ∧ ∀ x ∈ l, key (pyMin key b l) ≤ key x)
      ∧ ∃ l1 l2, b :: l = l1 ++ pyMin key b l :: l2
          ∧ ∀ x ∈ l1, key (pyMin key b l) < key x := by
  intro l
  induction l with
  | nil =>
    intro b
    exact ⟨⟨le_refl _, fun x hx => absurd hx (List.not_mem_nil x)⟩,
      [], [], rfl, fun x hx => absurd hx (List.not_mem_nil x)⟩
  | cons x xs ih =>
    intro b
    rw [pyMin]
    by_cases h : key x < key b
    · rw [if_pos h]
      obtain ⟨⟨hb, hall⟩, l1, l2, heq, hl1⟩ := ih x
      refine ⟨⟨le_of_lt (lt_of_le_of_lt hb h), ?_⟩, b :: l1, l2, ?_, ?_⟩
      · intro y hy
        rcases List.mem_cons.mp hy with rfl | hy'
        · exact hb
        · exact hall y hy'
      · rw [List.cons_append, ← heq]
      · intro y hy
        rcases List.mem_cons.mp hy with rfl | hy'
        · exact lt_of_le_of_lt hb h
        · exact hl1 y hy'
    · rw [if_neg h]
      have hbx : key b ≤ key x := le_of_not_lt h
      obtain ⟨⟨hb, hall⟩, l1, l2, heq, hl1⟩ := ih b
      refine ⟨⟨hb, ?_⟩, ?_⟩
      · intro y hy
        rcases List.mem_cons.mp hy with rfl | hy'
        · exact le_trans hb hbx
        · exact hall y hy'
      · cases l1 with
        | nil =>
          injection heq with h1 h2
          refine ⟨[], x :: l2, ?_, fun y hy => absurd hy (List.not_mem_nil y)⟩
          rw [List.nil_append, ← h1, h2]
        | cons c t =>
          injection heq with h1 h2
          rw [List.append_eq] at h2
          refine ⟨b :: x :: t, l2, ?_, ?_⟩
          · rw [List.cons_append, List.cons_append, ← h2]
          · have hmb : key (pyMin key b xs) < key b := by
              have hc := hl1 c (List.mem_cons_self c t)
              rw [← h1] at hc
              exact hc
            intro y hy
            rcases List.mem_cons.mp hy with rfl | hy'
            · exact hmb
            · rcases List.mem_cons.mp hy' with rfl | hy''
              · exact lt_of_lt_of_le hmb hbx
              · exact hl1 y (List.mem_cons_of_mem c hy'')

/-- C3: for every nonempty record sequence `r :: rs` and target epoch `t`,
the selected ephemeris is an element of the sequence whose `toe` minimizes
`|t - toe|`, and every record appearing before it in input order has a
strictly larger distance — so ties go to the first-encountered record. -/
theorem selectEphemeris_first_nearest (t : ℚ) (r : EphemerisRecord)
    (rs : List EphemerisRecord) :
    ∃ l1 l2, r :: rs = l1 ++ selectEphemeris t r rs :: l2
      ∧ (∀ x ∈ r :: rs, |t - (selectEphemeris t r rs).toe| ≤ |t - x.toe|)
      ∧ (∀ x ∈ l1, |t - (selectEphemeris t r rs).toe| < |t - x.toe|) := by
  obtain ⟨⟨hb, hall⟩, l1, l2, heq, hl1⟩ := pyMin_spec (fun q => |t - q.toe|) rs r
  refine ⟨l1, l2, heq, ?_, hl1⟩
  intro x hx
  rcases List.mem_cons.mp hx with rfl | hx'
  · exact hb
  · exact hall x hx'

/-- C2 counterexample: for the epoch `t = 1000000` and a single record with
`toe = 0` (so the selected record's raw difference is 1000000), the adjusted
`tk` is `395200`, outside `[-302400, 302400]`: the wrap rule subtracts one
week only once, so differences beyond 907200 s stay out of range. -/
theorem compute_tk_out_of_range :
    ¬ (-302400 ≤ compute_tk 1000000 recZero []
        ∧ compute_tk 1000000 recZero [] ≤ 302400) := by
  have hval : compute_tk 1000000 recZero [] = 395200 := by
    show adjust_tk (1000000 - recZero.toe) = 395200
    rw [show recZero.toe = (0 : ℚ) from rfl]
    norm_num [adjust_tk]
  rw [hval]
  norm_num

/-- C2 amended: whenever the selected record's raw difference `t - toe` lies
within ±907200 s (three half-weeks, which covers every epoch within one week
of the ephemeris reference time), the adjusted `tk` lies within
`[-302400, 302400]`. -/
theorem compute_tk_in_range (t : ℚ) (r : EphemerisRecord)
    (rs : List EphemerisRecord)
    (h : |t - (selectEphemeris t r rs).toe| ≤ 907200) :
    -302400 ≤ compute_tk t r rs ∧ compute_tk t r rs ≤ 302400 := by
  obtain ⟨h1, h2⟩ := abs_le.mp h
  simp only [compute_tk, adjust_tk]
  split_ifs <;> constructor <;> linarith

/-- Witness for `compute_tk_in_range` at `t = 400000` over a single record
with `toe = 0`: the raw difference 400000 exceeds 302400, and the adjusted
`tk = -204800` is in range. -/
theorem compute_tk_in_range_witness :
    |(400000 : ℚ) - (selectEphemeris 400000 recZero []).toe| ≤ 907200
      ∧ (-302400 ≤ compute_tk 400000 recZero []
          ∧ compute_tk 400000 recZero [] ≤ 302400) :=
  have hd : |(400000 : ℚ) - (selectEphemeris 400000 recZero []).toe| ≤ 907200 := by
    show |(400000 : ℚ) - recZero.toe| ≤ 907200
    rw [show recZero.toe = (0 : ℚ) from rfl]
    norm_num
  ⟨hd, compute_tk_in_range 400000 recZero [] hd⟩

/-- Behavior of the `solve_kepler` loop when no iteration meets a zero
denominator: the result is the `k`-th Newton iterate of the seed for some
`k ≤ fuel`, every performed update had magnitude at least `tol`, and if the
fuel was not exhausted the next update would be below `tol` (the early-stop
condition). -/
theorem solve_kepler_loop_spec (sinf cosf : ℚ → ℚ) (M e tol : ℚ) :
    ∀ (n : ℕ) (E : ℚ),
      (∀ i : ℕ, 1 - e * cosf ((kepler_iter sinf cosf M e)^[i] E) ≠ 0) →
      ∃ k ≤ n, solve_kepler_loop sinf cosf M e tol n E
          = some ((kepler_iter sinf cosf M e)^[k] E)
        ∧ (∀ i < k, tol ≤ |(kepler_iter sinf cosf M e)^[i + 1] E
            - (kepler_iter sinf cosf M e)^[i] E|)
        ∧ (k < n → |(kepler_iter sinf cosf M e)^[k + 1] E
            - (kepler_iter sinf cosf M e)^[k] E| < tol) := by
  intro n
  induction n with
  | zero =>
    intro E h
    exact ⟨0, Nat.le_refl 0, by simp [solve_kepler_loop],
      fun i hi => absurd hi (Nat.not_lt_zero i),
      fun h0 => absurd h0 (lt_irrefl 0)⟩
  | succ n ih =>
    intro E h
    have h0 : 1 - e * cosf E ≠ 0 := by
      have := h 0
      rwa [Function.iterate_zero_apply] at this
    have hstep : kepler_iter sinf cosf M e E
        = E - (E - e * sinf E - M) / (1 - e * cosf E) := rfl
    rw [solve_kepler_loop, if_neg h0]
    by_cases hstop : |E - (E - e * sinf E - M) / (1 - e * cosf E) - E| < tol
    · rw [if_pos hstop]
      refine ⟨0, Nat.zero_le _, by simp, fun i hi => absurd hi (Nat.not_lt_zero i),
        fun _ => ?_⟩
      simpa [Function.iterate_one, hstep] using hstop
    · rw [if_neg hstop]
      obtain ⟨k, hk, hres, hlow, hhigh⟩ := ih (kepler_iter sinf cosf M e E) (fun i => by
        have := h (i + 1)
        rwa [Function.iterate_succ_apply] at this)
      refine ⟨k + 1, Nat.succ_le_succ hk, ?_, ?_, ?_⟩
      · rw [← hstep, hres, Function.iterate_succ_apply]
      · intro i hi
        match i with
        | 0 =>
          simpa [Function.iterate_one, hstep] using le_of_not_lt hstop
        | j + 1 =>
          have := hlow j (Nat.lt_of_succ_lt_succ hi)
          rwa [← Function.iterate_succ_apply, ← Function.iterate_succ_apply] at this
      · intro hklt
        have := hhigh (Nat.lt_of_succ_lt_succ hklt)
        rwa [← Function.iterate_succ_apply, ← Function.iterate_succ_apply] at this

/-- C6 counterexample: at `M = 0`, `e = 1` the very first Newton update of
`solve_kepler` divides by `1 - e*cos(E)` with `E = M = 0`, and `cos 0 = 1`
exactly (also in Python floats), so the denominator is zero and Python raises
`ZeroDivisionError` instead of returning an estimate.  The trigonometric
oracles used here (`sin ↦ 0`, `cos ↦ 1`) agree with the real `math.sin` and
`math.cos` at the only point evaluated, `E = 0`. -/
theorem solve_kepler_zero_denominator :
    solve_kepler (fun _ => 0) (fun _ => 1) 0 1 = none := by
  have h10 : (10 : ℕ) = 9 + 1 := rfl
  rw [solve_kepler, h10, solve_kepler_loop]
  norm_num

/-- C6 amended: for every mean anomaly `M` and eccentricity `e` such that no
iterate meets a zero denominator (in particular all `0 ≤ e < 1`, by
`kepler_denominator_never_zero`), `solve_kepler` performs at most 10 update
iterations, every performed update had magnitude at least `1e-12`, it stops
early exactly when the next update magnitude falls below `1e-12`, and on
non-convergence it raises no error but returns its current estimate (the
10th iterate). -/
theorem solve_kepler_iteration_cap (sinf cosf : ℚ → ℚ) (M e : ℚ)
    (hd : ∀ i : ℕ, 1 - e * cosf ((kepler_iter sinf cosf M e)^[i] M) ≠ 0) :
    ∃ k ≤ 10, solve_kepler sinf cosf M e
        = some ((kepler_iter sinf cosf M e)^[k] M)
      ∧ (∀ i < k, 1 / 10 ^ 12 ≤ |(kepler_iter sinf cosf M e)^[i + 1] M
          - (kepler_iter sinf cosf M e)^[i] M|)
      ∧ (k < 10 → |(kepler_iter sinf cosf M e)^[k + 1] M
          - (kepler_iter sinf cosf M e)^[k] M| < 1 / 10 ^ 12) := by
  simpa only [solve_kepler] using
    solve_kepler_loop_spec sinf cosf M e (1 / 10 ^ 12) 10 M hd

/-- Witness for `solve_kepler_iteration_cap` with constant-zero trigonometric
oracles, `M = 1`, `e = 1/2`: every denominator is 1. -/
theorem solve_kepler_iteration_cap_witness :
    (∀ i : ℕ, 1 - (1/2 : ℚ) * (fun _ => (0 : ℚ))
        ((kepler_iter (fun _ => 0) (fun _ => 0) 1 (1/2))^[i] 1) ≠ 0)
    ∧ ∃ k ≤ 10, solve_kepler (fun _ => 0) (fun _ => 0) 1 (1/2)
        = some ((kepler_iter (fun _ => 0) (fun _ => 0) 1 (1/2))^[k] 1)
      ∧ (∀ i < k, 1 / 10 ^ 12 ≤ |(kepler_iter (fun _ => 0) (fun _ => 0) 1 (1/2))^[i + 1] 1
          - (kepler_iter (fun _ => 0) (fun _ => 0) 1 (1/2))^[i] 1|)
      ∧ (k < 10 → |(kepler_iter (fun _ => 0) (fun _ => 0) 1 (1/2))^[k + 1] 1
          - (kepler_iter (fun _ => 0) (fun _ => 0) 1 (1/2))^[k] 1| < 1 / 10 ^ 12) :=
  ⟨fun i => by norm_num,
   solve_kepler_iteration_cap (fun _ => 0) (fun _ => 0) 1 (1/2) (fun i => by norm_num)⟩

/-- C7: for every mean anomaly `M`, `solve_kepler(M, 0)` returns `M`: with
`e = 0` the first update is `E_next = M - (M - M)/1 = M`, the update
magnitude is 0 < 1e-12, and the loop stops at once with the seed `E = M`.
This holds for any trigonometric oracles, hence for the real
`math.sin`/`math.cos`. -/
theorem solve_kepler_zero_ecc (sinf cosf : ℚ → ℚ) (M : ℚ) :
    solve_kepler sinf cosf M 0 = some M := by
  have h10 : (10 : ℕ) = 9 + 1 := rfl
  rw [solve_kepler, h10, solve_kepler_loop]
  norm_num

/-- C10: for any eccentricity `0 ≤ e < 1` and any cosine bounded by 1 in
absolute value (as the real `math.cos` is), the denominator `1 - e*cos(E)` is
strictly positive at every iterate of `solve_kepler`, so the Newton update
never divides by zero and the solver returns a value. -/
theorem kepler_denominator_never_zero (sinf cosf : ℚ → ℚ)
    (hc : ∀ x, |cosf x| ≤ 1) (M e : ℚ) (he0 : 0 ≤ e) (he1 : e < 1) :
    (∀ i : ℕ, 0 < 1 - e * cosf ((kepler_iter sinf cosf M e)^[i] M))
      ∧ (solve_kepler sinf cosf M e).isSome = true := by
  have key : ∀ x : ℚ, 0 < 1 - e * cosf x := by
    intro x
    have h1 : e * cosf x ≤ e * |cosf x| :=
      mul_le_mul_of_nonneg_left (le_abs_self _) he0
    have h2 : e * |cosf x| ≤ e * 1 := mul_le_mul_of_nonneg_left (hc x) he0
    linarith
  refine ⟨fun i => key _, ?_⟩
  obtain ⟨k, _, hres, _, _⟩ := solve_kepler_loop_spec sinf cosf M e (1 / 10 ^ 12) 10 M
    (fun i => ne_of_gt (key _))
  rw [solve_kepler, hres]
  rfl

/-- Witness for `kepler_denominator_never_zero` with constant-zero oracles,
`M = 0`, `e = 1/2`. -/
theorem kepler_denominator_never_zero_witness :
    ((∀ x : ℚ, |(fun _ => (0 : ℚ)) x| ≤ 1) ∧ (0 : ℚ) ≤ 1/2 ∧ (1/2 : ℚ) < 1)
    ∧ ((∀ i : ℕ, 0 < 1 - (1/2 : ℚ) * (fun _ => (0 : ℚ))
          ((kepler_iter (fun _ => 0) (fun _ => 0) 0 (1/2))^[i] 0))
        ∧ (solve_kepler (fun _ => 0) (fun _ => 0) 0 (1/2)).isSome = true) :=
  ⟨⟨fun x => by norm_num, by norm_num, by norm_num⟩,
   kepler_denominator_never_zero (fun _ => 0) (fun _ => 0) (fun x => by norm_num)
     0 (1/2) (by norm_num) (by norm_num)⟩

/-- C8: whenever the step is at least the tolerance `1e-9` and the requested
`end` lies within the tolerance below (or exactly at) the `k`-th step point
`start + k*dt`, the generated sequence is exactly the `k+1` evenly spaced
epochs `start, start+dt, …, start+k*dt` — so the final step point, and with
it `end` itself when `end` is a step point, is included. -/
theorem generate_time_sequence_steps (start endv dt : ℚ) (k : ℕ)
    (h0 : 1 / 10 ^ 9 ≤ dt)
    (h1 : start + (k : ℚ) * dt - 1 / 10 ^ 9 < endv)
    (h2 : endv ≤ start + (k : ℚ) * dt) :
    generate_time_sequence start endv dt
      = (List.range (k + 1)).map (fun i => start + (i : ℚ) * dt) := by
  have hdt : 0 < dt := lt_of_lt_of_le (by norm_num) h0
  have hceil : Int.ceil ((endv + 1 / 10 ^ 9 - start) / dt) = (k : ℤ) + 1 := by
    rw [Int.ceil_eq_iff]
    constructor
    · rw [lt_div_iff₀ hdt]
      push_cast
      linarith
    · rw [div_le_iff₀ hdt]
      push_cast
      linarith
  rw [generate_time_sequence, np_arange, hceil]
  norm_num

/-- Witness for `generate_time_sequence_steps`:
`generate_time_sequence(0, 90, 30)` yields exactly `[0, 30, 60, 90]`. -/
theorem generate_time_sequence_steps_witness :
    ((1 : ℚ) / 10 ^ 9 ≤ 30 ∧ (0 : ℚ) + (3 : ℕ) * 30 - 1 / 10 ^ 9 < 90
      ∧ (90 : ℚ) ≤ 0 + (3 : ℕ) * 30)
    ∧ generate_time_sequence 0 90 30 = [0, 30, 60, 90] := by
  refine ⟨⟨by norm_num, by norm_num, by norm_num⟩, ?_⟩
  have h := generate_time_sequence_steps 0 90 30 3 (by norm_num) (by norm_num) (by norm_num)
  rw [h]
  norm_num [List.range_succ]

/-- The mathematical value of Python's float `%` with a positive modulus lies
in `[0, m)`. -/
theorem pymod_bounds (x m : ℚ) (hm : 0 < m) : 0 ≤ pymod x m ∧ pymod x m < m := by
  have hf : (⌊x / m⌋ : ℚ) ≤ x / m := Int.floor_le _
  have hf2 : x / m < ⌊x / m⌋ + 1 := Int.lt_floor_add_one _
  have h1 : (⌊x / m⌋ : ℚ) * m ≤ x := by
    have := mul_le_mul_of_nonneg_right hf (le_of_lt hm)
    rwa [div_mul_cancel₀ x (ne_of_gt hm)] at this
  have h2 : x < ((⌊x / m⌋ : ℚ) + 1) * m := by
    have := mul_lt_mul_of_pos_right hf2 hm
    rwa [div_mul_cancel₀ x (ne_of_gt hm)] at this
  rw [pymod]
  constructor
  · linarith
  · nlinarith

/-- C9: for every calendar timestamp, `convert_to_gps_seconds` returns a
value in `[0, 604800)`: the Julian-Day seconds are reduced modulo one week
`7*86400 = 604800`, and a modulo by a positive divisor lands in `[0, m)`. -/
theorem convert_to_gps_seconds_in_week (y m d h mi : ℤ) (s : ℚ) :
    0 ≤ convert_to_gps_seconds y m d h mi s
      ∧ convert_to_gps_seconds y m d h mi s < 604800 := by
  simp only [convert_to_gps_seconds]
  rw [show (7 * 86400 : ℚ) = 604800 by norm_num]
  exact pymod_bounds _ 604800 (by norm_num)

end GpsNav
